import Mathlib

/-!
Verification of the cache-aside data access layer, metrics pipeline and
bottleneck-injection harness of the nodejs-perf-lab service.

The definitions below are a shallow embedding of the JavaScript source:
  * the Redis-backed cache as used by the route handlers
    (src/src/app.js, src/src/routes/users.js, products.js, orders.js),
  * the Prometheus metric declarations (src/src/metrics.js),
  * the bottleneck scenario registry (src/bottlenecks/scenarios.js,
    provided as src/unnamed/part_000).
Time is an explicit natural-number parameter (milliseconds do not matter,
only ordering and TTL arithmetic in seconds); machine state that the
handlers mutate (cache contents, metric counters, issued DB queries) is
passed explicitly.
-/

namespace PerfLab

/-! ## Redis store model

The service talks to Redis through `get`, `setex`, `keys` (glob with a
trailing `*`) and `del` (src/src/app.js lines 12-16 create the client;
the route handlers use it via `req.redis`).  The store is an association
list from key to (value, absolute expiry time); `get` honours the expiry:
an entry whose TTL has elapsed behaves exactly like an absent key. -/

structure RedisEntry where
  value : String
  expiresAt : Nat
  deriving DecidableEq, Repr

/-- The key/value store with TTLs; first match wins on lookup. -/
abbrev RedisStore := List (String × RedisEntry)

/-- Redis `GET k` at time `now`: the stored value if present and unexpired. -/
def redisGet (now : Nat) (st : RedisStore) (k : String) : Option String :=
  match st.find? (fun e => e.1 == k) with
  | some e => if now < e.2.expiresAt then some e.2.value else none
  | none => none

/-- Redis `SETEX k ttl v` at time `now`: store `v` under `k`, expiring at
`now + ttl` (replacing any previous entry for `k`). -/
def redisSetex (now : Nat) (k : String) (ttl : Nat) (v : String)
    (st : RedisStore) : RedisStore :=
  (k, ⟨v, now + ttl⟩) :: st.filter (fun e => e.1 ≠ k)

/-- Redis `KEYS p*`: every stored key beginning with `p` (the handlers only ever
use glob patterns of the shape `prefix*`, e.g. `users:*`). -/
def redisKeysWithPrefix (p : String) (st : RedisStore) : List String :=
  (st.map Prod.fst).filter (fun k => p.isPrefixOf k)

/-- Redis `DEL k1 ... kn`: drop every entry whose key is listed. -/
def redisDel (ks : List String) (st : RedisStore) : RedisStore :=
  st.filter (fun e => !(ks.contains e.1))

/-- Write-path invalidation, e.g. src/src/routes/users.js lines 99-102:
`keys = await redis.keys('users:*'); if (keys.length) await redis.del(...keys)`. -/
def invalidateWithPrefix (p : String) (st : RedisStore) : RedisStore :=
  let ks := redisKeysWithPrefix p st
  if ks.isEmpty then st else redisDel ks st

/-! ## The get-or-compute read pattern

Every cached read handler performs the same inline sequence
(src/src/routes/users.js lines 36-61): `GET key`; on a hit return the
cached value; on a miss compute the value, `SETEX key ttl value`, and
return it.  `getOrCompute` is that sequence with the compute result as a
parameter (the DB is external to the cache layer). -/

inductive Outcome
  | hit
  | miss
  deriving DecidableEq, Repr

def getOrCompute (now : Nat) (key : String) (ttl : Nat) (computeVal : String)
    (st : RedisStore) : Outcome × String × RedisStore :=
  match redisGet now st key with
  | some v => (.hit, v, st)
  | none => (.miss, computeVal, redisSetex now key ttl computeVal st)

/-! ## C1: miss, then hits within TTL, then miss after expiry -/

/-- C1: for a key `K` never written, the first `getOrCompute` at time `t0`
misses and stores the computed value under `K` expiring at `t0 + ttl`;
any later call at `t1 < t0 + ttl` hits, returns the stored value, and
leaves the store unchanged; and a call at `t2 ≥ t0 + ttl` (TTL elapsed,
no intervening invalidation) misses again: no permanent caching. -/
theorem c1_get_or_compute_ttl (K v v' v'' : String) (ttl t0 t1 t2 : Nat)
    (st : RedisStore)
    (hK : st.find? (fun e => e.1 == K) = none)
    (h1 : t1 < t0 + ttl)
    (h2 : t0 + ttl ≤ t2) :
    (getOrCompute t0 K ttl v st).1 = .miss ∧
    ((getOrCompute t0 K ttl v st).2.2.find? (fun e => e.1 == K) =
      some (K, ⟨v, t0 + ttl⟩)) ∧
    (getOrCompute t1 K ttl v' (getOrCompute t0 K ttl v st).2.2 =
      (.hit, v, (getOrCompute t0 K ttl v st).2.2)) ∧
    ((getOrCompute t2 K ttl v'' (getOrCompute t0 K ttl v st).2.2).1 = .miss) := by
  have hget0 : redisGet t0 st K = none := by
    simp [redisGet, hK]
  have hfirst : getOrCompute t0 K ttl v st =
      (.miss, v, redisSetex t0 K ttl v st) := by
    simp [getOrCompute, hget0]
  have hfind : (redisSetex t0 K ttl v st).find? (fun e => e.1 == K) =
      some (K, ⟨v, t0 + ttl⟩) := by
    simp [redisSetex, List.find?]
  refine ⟨by simp [hfirst], by simp [hfirst, hfind], ?_, ?_⟩
  · have hget1 : redisGet t1 (redisSetex t0 K ttl v st) K = some v := by
      simp [redisGet, hfind, h1]
    rw [hfirst]
    simp only [getOrCompute, hget1]
  · have hget2 : redisGet t2 (redisSetex t0 K ttl v st) K = none := by
      have : ¬ t2 < t0 + ttl := by omega
      simp [redisGet, hfind, this]
    rw [hfirst]
    simp only [getOrCompute, hget2]

/-- Witness for C1 at concrete inputs: key `users:1:10`, TTL 60, first call
at time 0, second at time 30, third at time 60, empty initial store. -/
theorem c1_get_or_compute_ttl_witness :
    (getOrCompute 0 "users:1:10" 60 "payload" []).1 = .miss ∧
    ((getOrCompute 0 "users:1:10" 60 "payload" []).2.2.find?
      (fun e => e.1 == "users:1:10") = some ("users:1:10", ⟨"payload", 60⟩)) ∧
    (getOrCompute 30 "users:1:10" 60 "other"
        (getOrCompute 0 "users:1:10" 60 "payload" []).2.2 =
      (.hit, "payload", (getOrCompute 0 "users:1:10" 60 "payload" []).2.2)) ∧
    ((getOrCompute 60 "users:1:10" 60 "third"
        (getOrCompute 0 "users:1:10" 60 "payload" []).2.2).1 = .miss) :=
  c1_get_or_compute_ttl "users:1:10" "payload" "other" "third" 60 0 30 60 []
    (by rfl) (by omega) (by omega)

/-! ## C2: prefix invalidation deletes exactly the prefixed keys -/

theorem filter_keys_congr (p : String) (st : RedisStore) :
    st.filter (fun e => !((redisKeysWithPrefix p st).contains e.1)) =
      st.filter (fun e => !(p.isPrefixOf e.1)) := by
  apply List.filter_congr
  intro e he
  have : (redisKeysWithPrefix p st).contains e.1 = p.isPrefixOf e.1 := by
    by_cases hp : p.isPrefixOf e.1
    · rw [hp]
      have hmem : e.1 ∈ redisKeysWithPrefix p st := by
        simp only [redisKeysWithPrefix, List.mem_filter, List.mem_map]
        exact ⟨⟨e, he, rfl⟩, hp⟩
      rw [List.contains_eq_any_beq, List.any_eq_true]
      exact ⟨e.1, hmem, by simp⟩
    · simp only [Bool.not_eq_true] at hp
      rw [hp]
      rw [List.contains_eq_any_beq]
      simp only [List.any_eq_false, Bool.not_eq_true]
      intro a ha
      simp only [redisKeysWithPrefix, List.mem_filter, List.mem_map] at ha
      rw [beq_eq_false_iff_ne]
      intro heq
      rw [heq, ha.2] at hp
      exact Bool.true_eq_false.mp hp
  rw [this]

theorem find?_filter_not_prefix (p k : String) (st : RedisStore) :
    (st.filter (fun e => !(p.isPrefixOf e.1))).find? (fun e => e.1 == k) =
      (if p.isPrefixOf k then none else st.find? (fun e => e.1 == k)) := by
  induction st with
  | nil => simp
  | cons e rest ih =>
    by_cases hk : e.1 = k
    · subst hk
      by_cases hp : p.isPrefixOf e.1
      · simp [List.filter, hp, ih, List.find?]
      · simp only [Bool.not_eq_true] at hp
        simp [List.filter, hp, List.find?]
    · have hbeq : (e.1 == k) = false := by simp [hk]
      by_cases hp : p.isPrefixOf e.1
      · simp [List.filter, hp, ih, List.find?, hbeq]
      · simp only [Bool.not_eq_true] at hp
        simp [List.filter, hp, ih, List.find?, hbeq]

/-- C2: the write-path invalidation (`KEYS p*` then `DEL`) removes exactly
the entries whose key starts with `p`: membership is preserved for every
entry whose key lacks the prefix and destroyed for every entry whose key
has it, and lookups for non-prefixed keys are unchanged. -/
theorem c2_invalidate_prefix_exact (p k : String) (st : RedisStore) :
    ((invalidateWithPrefix p st).find? (fun e => e.1 == k) =
      (if p.isPrefixOf k then none else st.find? (fun e => e.1 == k))) ∧
    (∀ e : String × RedisEntry,
      e ∈ invalidateWithPrefix p st ↔ (e ∈ st ∧ p.isPrefixOf e.1 = false)) := by
  have hfilter : invalidateWithPrefix p st =
      st.filter (fun e => !(p.isPrefixOf e.1)) := by
    unfold invalidateWithPrefix redisDel
    by_cases hemp : (redisKeysWithPrefix p st).isEmpty
    · simp only [hemp, if_true]
      rw [List.isEmpty_iff] at hemp
      have hall : ∀ e ∈ st, p.isPrefixOf e.1 = false := by
        intro e he
        by_contra hcon
        simp only [Bool.not_eq_false] at hcon
        have : e.1 ∈ redisKeysWithPrefix p st := by
          simp only [redisKeysWithPrefix, List.mem_filter, List.mem_map]
          exact ⟨⟨e, he, rfl⟩, hcon⟩
        rw [hemp] at this
        exact absurd this (List.not_mem_nil _)
      rw [List.filter_eq_self.mpr (fun e he => by simp [hall e he])]
    · simp only [hemp, if_false]
      exact filter_keys_congr p st
  constructor
  · rw [hfilter]
    exact find?_filter_not_prefix p k st
  · intro e
    rw [hfilter, List.mem_filter]
    simp

/-! ## Bottleneck injector (src/unnamed/part_000, i.e. bottlenecks/scenarios.js)

Each scenario is a function of one numeric knob with a default declared in
its signature.  The observable effect of a scenario on the process is
recorded in `ProcState`: synchronous busy-wait milliseconds consumed on the
event loop, megabytes allocated, timer-suspension milliseconds, and leaked
(never-closed) database connections. -/

structure ProcState where
  busyMs : Nat
  allocatedMB : Nat
  sleepMs : Nat
  openConnections : Nat
  deriving DecidableEq, Repr

def procState0 : ProcState := ⟨0, 0, 0, 0⟩

/-- Scenario `cpuIntensive: async (duration = 1000)`: busy-loops `pbkdf2Sync` until
`Date.now() - start >= duration` — synchronous CPU for `duration` ms. -/
def cpuIntensive (duration : Nat) (st : ProcState) : ProcState :=
  { st with busyMs := st.busyMs + duration }

/-- Scenario `memoryIntensive: async (sizeMB = 50)`: allocates a `sizeMB`-MB array,
then awaits a 100 ms timer. -/
def memoryIntensive (sizeMB : Nat) (st : ProcState) : ProcState :=
  { st with allocatedMB := st.allocatedMB + sizeMB, sleepMs := st.sleepMs + 100 }

/-- Scenario `blockEventLoop: async (duration = 500)`: a tight `while` loop (no
`await` inside) until `duration` ms elapse — blocks the event loop. -/
def blockEventLoop (duration : Nat) (st : ProcState) : ProcState :=
  { st with busyMs := st.busyMs + duration }

/-- Scenario `slowIO: async (delay = 2000)`: awaits a `delay`-ms timer (renamed from
the source's `slowIO`, pure suspension). -/
def slowIoScenario (delay : Nat) (st : ProcState) : ProcState :=
  { st with sleepMs := st.sleepMs + delay }

/-- Scenario `dbConnectionLeak: async ()`: opens a mongoose connection and
deliberately never closes it (the knob is unused). -/
def dbConnectionLeak (_k : Nat) (st : ProcState) : ProcState :=
  { st with openConnections := st.openConnections + 1 }

/-- The `scenarios` object: registry from name to scenario function. -/
def scenariosLookup (name : String) : Option (Nat → ProcState → ProcState) :=
  if name = "cpuIntensive" then some cpuIntensive
  else if name = "memoryIntensive" then some memoryIntensive
  else if name = "blockEventLoop" then some blockEventLoop
  else if name = "slowIO" then some slowIoScenario
  else if name = "dbConnectionLeak" then some dbConnectionLeak
  else none

/-- The default parameter declared in each scenario's signature
(`duration = 1000`, `sizeMB = 50`, `duration = 500`, `delay = 2000`). -/
def scenarioDefault (name : String) : Nat :=
  if name = "cpuIntensive" then 1000
  else if name = "memoryIntensive" then 50
  else if name = "blockEventLoop" then 500
  else if name = "slowIO" then 2000
  else 0

/-- Runner `createBottleneck: async (scenario) => { if (scenarios[scenario]) await
scenarios[scenario](); }` — the exported run operation takes only the
scenario name and invokes the registered function with NO argument, so the
signature default applies; an unregistered name does nothing. -/
def createBottleneck (scenario : String) (st : ProcState) : ProcState :=
  match scenariosLookup scenario with
  | some f => f (scenarioDefault scenario) st
  | none => st

/-! ## C3: unknown scenario names are silent no-ops -/

/-- C3: invoking the bottleneck runner with a name that is not registered
(`scenarios[scenario]` is undefined) returns successfully with the process
state completely unchanged — `createBottleneck` is a total function, so no
error is raised or propagated. -/
theorem c3_unknown_scenario_noop (name : String) (st : ProcState)
    (h : scenariosLookup name = none) :
    createBottleneck name st = st := by
  simp [createBottleneck, h]

/-- Witness for C3 at the spec's concrete input: scenario name
`"nonexistent"` on the fresh process state. -/
theorem c3_unknown_scenario_noop_witness :
    createBottleneck "nonexistent" procState0 = procState0 :=
  c3_unknown_scenario_noop "nonexistent" procState0 (by rfl)

/-! ## C4: the run operation cannot forward a caller-supplied knob -/

/-- C4 counterexample: the spec claims `run(scenario_name, params)` makes
the scenario consume resources according to the caller-requested value, but
`createBottleneck` accepts no parameter besides the name and calls the
scenario with no argument.  Requesting `blockEventLoop` for 200 ms still
consumes the 500 ms signature default: the claimed consumption (200) is
simply not what any invocation produces. -/
theorem c4_run_ignores_requested_param_counterexample :
    (createBottleneck "blockEventLoop" procState0).busyMs = 500 ∧
    ((createBottleneck "blockEventLoop" procState0).busyMs = 200 → False) := by
  constructor
  · rfl
  · intro h
    simp [createBottleneck, scenariosLookup, scenarioDefault, blockEventLoop,
      procState0] at h

/-- C4 amended: `createBottleneck` executes each registered scenario with
the default parameter declared in the scenario's own signature — 1000 ms of
busy CPU for `cpuIntensive`, 50 MB plus a 100 ms timer for
`memoryIntensive`, 500 ms of event-loop blocking for `blockEventLoop`,
a 2000 ms timer for `slowIO`, and one leaked connection for
`dbConnectionLeak` — regardless of any value the caller wished to request,
since the run operation exposes no parameter knob. -/
theorem c4_run_uses_signature_defaults (st : ProcState) :
    createBottleneck "cpuIntensive" st = { st with busyMs := st.busyMs + 1000 } ∧
    createBottleneck "memoryIntensive" st =
      { st with allocatedMB := st.allocatedMB + 50, sleepMs := st.sleepMs + 100 } ∧
    createBottleneck "blockEventLoop" st = { st with busyMs := st.busyMs + 500 } ∧
    createBottleneck "slowIO" st = { st with sleepMs := st.sleepMs + 2000 } ∧
    createBottleneck "dbConnectionLeak" st =
      { st with openConnections := st.openConnections + 1 } := by
  refine ⟨rfl, rfl, rfl, rfl, rfl⟩

/-! ## C9: loop-block starves the shared execution context

The Node.js event loop itself is not part of src/, so its scheduling is
modelled from the spec. -/

/-- Modelled from the spec: the single shared execution context ("single
logical worker processing many concurrently in-flight operations
cooperatively").  Each in-flight operation contributes one synchronous
segment that runs to completion before the next starts; the completion
time of the i-th operation is the sum of all segment durations up to and
including its own.  `blockEventLoop`'s `while` loop contains no `await`
(src/unnamed/part_000 lines 22-28), so it is a single such segment. -/
def cooperativeCompletionTimes : List Nat → Nat → List Nat
  | [], _ => []
  | d :: rest, t => (t + d) :: cooperativeCompletionTimes rest (t + d)

/-- Modelled from the spec: the incorrect parallelized implementation, in
which every operation runs on its own context and completes after only its
own duration. -/
def parallelCompletionTimes (segs : List Nat) : List Nat := segs

/-- C9: running `blockEventLoop` (whose busy-wait duration, per
`createBottleneck`, is 500 ms) on the shared context together with 10
lightweight (0-cost) operations makes every one of the 10 complete at time
500 — each is delayed by the full 500 ms — whereas the incorrectly
parallelized model completes all 10 at time 0 (a 0 ms delay). -/
theorem c9_loop_block_starves_shared_context :
    (createBottleneck "blockEventLoop" procState0).busyMs = 500 ∧
    cooperativeCompletionTimes
        ((createBottleneck "blockEventLoop" procState0).busyMs ::
          List.replicate 10 0) 0 =
      500 :: List.replicate 10 500 ∧
    parallelCompletionTimes
        ((createBottleneck "blockEventLoop" procState0).busyMs ::
          List.replicate 10 0) =
      500 :: List.replicate 10 0 := by
  refine ⟨rfl, ?_, rfl⟩
  decide

/-! ## Metrics: Prometheus histograms (src/src/metrics.js)

The two histograms the service declares.  Durations are seconds, observed
as exact decimal fractions of milliseconds, so bucket boundaries are
rationals. -/

/-- Histogram `httpDuration` buckets: `[0.1, 0.3, 0.5, 0.7, 1, 3, 5, 7, 10]`
(written as exact rationals). -/
def httpDurationBuckets : List ℚ :=
  [mkRat 1 10, mkRat 3 10, mkRat 1 2, mkRat 7 10, mkRat 1 1, mkRat 3 1,
    mkRat 5 1, mkRat 7 1, mkRat 10 1]

/-- Histogram `dbQueryDuration` buckets: `[0.001, 0.005, 0.01, 0.05, 0.1, 0.5, 1, 2, 5]`
(written as exact rationals). -/
def dbQueryDurationBuckets : List ℚ :=
  [mkRat 1 1000, mkRat 1 200, mkRat 1 100, mkRat 1 20, mkRat 1 10,
    mkRat 1 2, mkRat 1 1, mkRat 2 1, mkRat 5 1]

/-- One labelled histogram series: a cumulative counter per declared
boundary, plus the running sum and total count. -/
structure HistState where
  bucketCounts : List Nat
  sum : ℚ
  count : Nat
  deriving DecidableEq, Repr

/-- A freshly registered series: all cumulative counters, the sum and the
count start at zero. -/
def zeroHist (bounds : List ℚ) : HistState :=
  ⟨List.replicate bounds.length 0, 0, 0⟩

/-- Modelled from the spec: `observe_duration` on a Prometheus histogram
(the prom-client library implementing `Histogram.observe` is an external
dependency, not part of src/).  An observation of `v` increments the
cumulative counter of every bucket whose boundary is `≥ v`, adds `v` to
the running sum, and increments the total count. -/
def observe (bounds : List ℚ) (h : HistState) (v : ℚ) : HistState :=
  { bucketCounts :=
      (bounds.zip h.bucketCounts).map
        (fun bc => if v ≤ bc.1 then bc.2 + 1 else bc.2),
    sum := h.sum + v,
    count := h.count + 1 }

/-- A whole series of observations in order. -/
def observeAll (bounds : List ℚ) (h : HistState) (vs : List ℚ) : HistState :=
  vs.foldl (observe bounds) h

/-- Cumulative bucket counts are ordered along the boundary list. -/
def OrderedCounts (counts : List Nat) : Prop :=
  ∀ (i j ci cj : Nat), i ≤ j → counts[i]? = some ci → counts[j]? = some cj →
    ci ≤ cj

theorem observe_length (bounds : List ℚ) (h : HistState) (v : ℚ)
    (hlen : h.bucketCounts.length = bounds.length) :
    (observe bounds h v).bucketCounts.length = bounds.length := by
  simp [observe, hlen]

theorem observe_bucket_getElem (v : ℚ) :
    ∀ (bounds : List ℚ) (counts : List Nat) (i : Nat) (b : ℚ) (c : Nat),
      bounds[i]? = some b → counts[i]? = some c →
      ((bounds.zip counts).map
          (fun bc => if v ≤ bc.1 then bc.2 + 1 else bc.2))[i]? =
        some (if v ≤ b then c + 1 else c) := by
  intro bounds
  induction bounds with
  | nil => intro counts i b c hb; simp at hb
  | cons b0 rest ih =>
    intro counts i b c hb hc
    cases counts with
    | nil => simp at hc
    | cons c0 cs =>
      cases i with
      | zero =>
        simp only [List.getElem?_cons_zero, Option.some.injEq] at hb hc
        subst hb; subst hc
        simp [List.zip]
      | succ n =>
        simp only [List.getElem?_cons_succ] at hb hc
        simpa [List.zip] using ih cs n b c hb hc

theorem observe_bucket_mono (bounds : List ℚ) (h : HistState) (v : ℚ)
    (i c c' : Nat)
    (hc : h.bucketCounts[i]? = some c)
    (hc' : (observe bounds h v).bucketCounts[i]? = some c') : c ≤ c' := by
  cases hb : bounds[i]? with
  | none =>
    rw [List.getElem?_eq_none_iff] at hb
    have hnone : (observe bounds h v).bucketCounts[i]? = none := by
      rw [List.getElem?_eq_none_iff]
      simp only [observe, List.length_map, List.length_zip]
      omega
    rw [hnone] at hc'
    exact absurd hc' (by simp)
  | some b =>
    have := observe_bucket_getElem v bounds h.bucketCounts i b c hb hc
    have heq : (observe bounds h v).bucketCounts[i]? =
        some (if v ≤ b then c + 1 else c) := this
    rw [heq] at hc'
    have : c' = if v ≤ b then c + 1 else c := by
      exact (Option.some.injEq _ _ ▸ hc'.symm :)
    subst this
    split <;> omega

theorem bounds_mono_of_pairwise (bounds : List ℚ)
    (hsort : bounds.Pairwise (· < ·)) (i j : Nat) (bi bj : ℚ)
    (hij : i ≤ j) (hbi : bounds[i]? = some bi) (hbj : bounds[j]? = some bj) :
    bi ≤ bj := by
  obtain ⟨hilt, hieq⟩ := List.getElem?_eq_some.mp hbi
  obtain ⟨hjlt, hjeq⟩ := List.getElem?_eq_some.mp hbj
  rcases Nat.lt_or_ge i j with hlt | hge
  · have := List.pairwise_iff_getElem.mp hsort i j hilt hjlt hlt
    rw [hieq, hjeq] at this
    exact le_of_lt this
  · have : i = j := by omega
    subst this
    rw [hieq] at hjeq
    exact le_of_eq hjeq

theorem observe_preserves_ordered (bounds : List ℚ) (h : HistState) (v : ℚ)
    (hsort : bounds.Pairwise (· < ·))
    (hlen : h.bucketCounts.length = bounds.length)
    (hord : OrderedCounts h.bucketCounts) :
    OrderedCounts (observe bounds h v).bucketCounts := by
  intro i j ci' cj' hij hi hj
  have hleno : (observe bounds h v).bucketCounts.length = bounds.length :=
    observe_length bounds h v hlen
  have hi_lt : i < bounds.length := by
    by_contra hcon
    rw [show (observe bounds h v).bucketCounts[i]? = none from by
      rw [List.getElem?_eq_none_iff]; omega] at hi
    exact absurd hi (by simp)
  have hj_lt : j < bounds.length := by
    by_contra hcon
    rw [show (observe bounds h v).bucketCounts[j]? = none from by
      rw [List.getElem?_eq_none_iff]; omega] at hj
    exact absurd hj (by simp)
  obtain ⟨bi, hbi⟩ : ∃ b, bounds[i]? = some b :=
    ⟨bounds[i], List.getElem?_eq_some.mpr ⟨hi_lt, rfl⟩⟩
  obtain ⟨bj, hbj⟩ : ∃ b, bounds[j]? = some b :=
    ⟨bounds[j], List.getElem?_eq_some.mpr ⟨hj_lt, rfl⟩⟩
  obtain ⟨ci, hci⟩ : ∃ c, h.bucketCounts[i]? = some c :=
    ⟨h.bucketCounts.get ⟨i, by omega⟩, List.getElem?_eq_some.mpr ⟨by omega, rfl⟩⟩
  obtain ⟨cj, hcj⟩ : ∃ c, h.bucketCounts[j]? = some c :=
    ⟨h.bucketCounts.get ⟨j, by omega⟩, List.getElem?_eq_some.mpr ⟨by omega, rfl⟩⟩
  have heqi := observe_bucket_getElem v bounds h.bucketCounts i bi ci hbi hci
  have heqj := observe_bucket_getElem v bounds h.bucketCounts j bj cj hbj hcj
  have hieq : (observe bounds h v).bucketCounts[i]? =
      some (if v ≤ bi then ci + 1 else ci) := heqi
  have hjeq : (observe bounds h v).bucketCounts[j]? =
      some (if v ≤ bj then cj + 1 else cj) := heqj
  rw [hieq] at hi
  rw [hjeq] at hj
  have hci' : ci' = if v ≤ bi then ci + 1 else ci := by
    exact (Option.some.injEq _ _ ▸ hi.symm :)
  have hcj' : cj' = if v ≤ bj then cj + 1 else cj := by
    exact (Option.some.injEq _ _ ▸ hj.symm :)
  have hcij : ci ≤ cj := hord i j ci cj hij hci hcj
  have hbij : bi ≤ bj := bounds_mono_of_pairwise bounds hsort i j bi bj hij hbi hbj
  subst hci'; subst hcj'
  by_cases hvi : v ≤ bi
  · have hvj : v ≤ bj := le_trans hvi hbij
    simp [hvi, hvj]
    omega
  · simp only [hvi, if_false]
    split <;> omega

theorem observeAll_preserves (bounds : List ℚ) (vs : List ℚ)
    (hsort : bounds.Pairwise (· < ·)) :
    ∀ (h : HistState), h.bucketCounts.length = bounds.length →
      OrderedCounts h.bucketCounts →
      ((observeAll bounds h vs).bucketCounts.length = bounds.length ∧
        OrderedCounts (observeAll bounds h vs).bucketCounts) := by
  induction vs with
  | nil => intro h hlen hord; exact ⟨hlen, hord⟩
  | cons v rest ih =>
    intro h hlen hord
    have hlen' := observe_length bounds h v hlen
    have hord' := observe_preserves_ordered bounds h v hsort hlen hord
    simpa [observeAll] using ih (observe bounds h v) hlen' hord'

theorem zeroHist_ordered (bounds : List ℚ) :
    OrderedCounts (zeroHist bounds).bucketCounts := by
  intro i j ci cj hij hi hj
  simp only [zeroHist, List.getElem?_replicate] at hi hj
  by_cases hiL : i < bounds.length
  · by_cases hjL : j < bounds.length
    · rw [if_pos hiL] at hi
      rw [if_pos hjL] at hj
      have h1 : 0 = ci := Option.some_inj.mp hi
      have h2 : 0 = cj := Option.some_inj.mp hj
      omega
    · rw [if_neg hjL] at hj
      exact absurd hj (by simp)
  · rw [if_neg hiL] at hi
    exact absurd hi (by simp)

/-! ## C7: histogram boundary and monotonicity invariants -/

/-- C7: the declared bucket boundaries of both registered histograms are
strictly increasing; every observation adds its value to the running sum,
increments the total count, and increments the cumulative counter of
exactly the buckets whose boundary is `≥` the observed value; a bucket
counter never decreases across an observation; and at any snapshot (after
any sequence of observations from the fresh series), counters satisfy
`count(B) ≥ count(B')` whenever boundary `B ≥ B'` (index order). -/
theorem c7_histogram_invariants :
    httpDurationBuckets.Pairwise (· < ·) ∧
    dbQueryDurationBuckets.Pairwise (· < ·) ∧
    (∀ (bounds : List ℚ) (h : HistState) (v : ℚ),
      (observe bounds h v).count = h.count + 1 ∧
      (observe bounds h v).sum = h.sum + v) ∧
    (∀ (bounds : List ℚ) (h : HistState) (v b : ℚ) (i c : Nat),
      bounds[i]? = some b → h.bucketCounts[i]? = some c →
      (observe bounds h v).bucketCounts[i]? =
        some (if v ≤ b then c + 1 else c)) ∧
    (∀ (bounds : List ℚ) (h : HistState) (v : ℚ) (i c c' : Nat),
      h.bucketCounts[i]? = some c →
      (observe bounds h v).bucketCounts[i]? = some c' → c ≤ c') ∧
    (∀ (bounds vs : List ℚ) (i j ci cj : Nat),
      bounds.Pairwise (· < ·) → i ≤ j →
      (observeAll bounds (zeroHist bounds) vs).bucketCounts[i]? = some ci →
      (observeAll bounds (zeroHist bounds) vs).bucketCounts[j]? = some cj →
      ci ≤ cj) := by
  refine ⟨by decide, by decide, ?_, ?_, ?_, ?_⟩
  · intro bounds h v
    exact ⟨rfl, rfl⟩
  · intro bounds h v b i c hb hc
    exact observe_bucket_getElem v bounds h.bucketCounts i b c hb hc
  · intro bounds h v i c c' hc hc'
    exact observe_bucket_mono bounds h v i c c' hc hc'
  · intro bounds vs i j ci cj hsort hij hi hj
    have := (observeAll_preserves bounds vs hsort (zeroHist bounds)
      (by simp [zeroHist]) (zeroHist_ordered bounds)).2
    exact this i j ci cj hij hi hj

/-- Witness for C7 at concrete inputs: observing 0.4 s on the fresh
`http_request_duration_seconds` series leaves the 0.3 bucket at 0 and
raises the 0.5 bucket to 1, and the snapshot after `[0.4, 0.05]` keeps the
bucket counters ordered (bucket index 1 ≤ bucket index 4). -/
theorem c7_histogram_invariants_witness :
    (observe httpDurationBuckets (zeroHist httpDurationBuckets)
        (mkRat 2 5)).bucketCounts[2]? =
      some (if (mkRat 2 5 : ℚ) ≤ mkRat 1 2 then 0 + 1 else 0) ∧
    (1 : Nat) ≤ 2 := by
  constructor
  · exact c7_histogram_invariants.2.2.2.1 httpDurationBuckets
      (zeroHist httpDurationBuckets) (mkRat 2 5) (mkRat 1 2) 2 0
      (by decide) (by decide)
  · exact c7_histogram_invariants.2.2.2.2.2 httpDurationBuckets
      [mkRat 2 5, mkRat 1 20] 1 4 1 2 (by decide) (by omega)
      (by decide) (by decide)

/-! ## Cache-key construction (src/src/routes/users.js line 36,
products.js line 26, orders.js line 38)

`page`/`limit` in the users handler go through `parseInt(...) || default`,
so they are numbers rendered in decimal.  In the products and orders
handlers the query-string values are interpolated raw; `x || dflt`
treats an absent value and the empty string as falsy. -/

/-- JS `x || dflt` on an optional query-string value. -/
def jsOr (v : Option String) (dflt : String) : String :=
  match v with
  | some s => if s = "" then dflt else s
  | none => dflt

/-- JS truthiness of an optional query-string value. -/
def jsTruthy (v : Option String) : Bool :=
  match v with
  | some s => s ≠ ""
  | none => false

/-- users.js line 36: `` `users:${page}:${limit}` ``. -/
def usersCacheKey (page limit : Nat) : String :=
  "users:" ++ Nat.repr page ++ ":" ++ Nat.repr limit

/-- products.js line 26:
`` `products:${category || 'all'}:${minPrice || 0}:${maxPrice || 'max'}:${page}:${limit}` ``
with `page = 1`, `limit = 20` destructuring defaults. -/
def productsCacheKey (category minPrice maxPrice page limit : Option String) :
    String :=
  "products:" ++ jsOr category "all" ++ ":" ++ jsOr minPrice "0" ++ ":" ++
    jsOr maxPrice "max" ++ ":" ++ page.getD "1" ++ ":" ++ limit.getD "20"

/-- orders.js line 38:
`` `orders:${status || 'all'}:${userId || 'all'}:${page}:${limit}` ``
with `page = 1`, `limit = 10` destructuring defaults. -/
def ordersCacheKey (status userId page limit : Option String) : String :=
  "orders:" ++ jsOr status "all" ++ ":" ++ jsOr userId "all" ++ ":" ++
    page.getD "1" ++ ":" ++ limit.getD "10"

/-- products.js line 86: `` `product:${req.params.id}` ``. -/
def productByIdKey (id : String) : String := "product:" ++ id

/-- orders.js line 126: `` `order:${req.params.id}` ``. -/
def orderByIdKey (id : String) : String := "order:" ++ id

/-- The Mongo filter built by the products list handler (products.js lines
37-43): each field participates only when its query value is truthy (the
price bounds additionally go through `parseFloat`; the raw strings are kept
here, which only refines the distinction). -/
structure ProductsQuery where
  category : Option String
  minPrice : Option String
  maxPrice : Option String
  deriving DecidableEq, Repr

def buildProductsQuery (category minPrice maxPrice : Option String) :
    ProductsQuery :=
  ⟨if jsTruthy category then category else none,
    if jsTruthy minPrice then minPrice else none,
    if jsTruthy maxPrice then maxPrice else none⟩

/-! ## C6: key determinism vs. the no-collision claim

Auxiliary development: the decimal rendering `Nat.repr` contains no `':'`
and is injective, so the users-list keys `users:page:limit` never collide;
but the products keys collide for distinct queries. -/

theorem toDigitsCore_indep (b : Nat) :
    ∀ (fuel n : Nat) (ds : List Char),
      Nat.toDigitsCore b fuel n ds = Nat.toDigitsCore b fuel n [] ++ ds := by
  intro fuel
  induction fuel with
  | zero => intro n ds; simp [Nat.toDigitsCore]
  | succ f ih =>
    intro n ds
    simp only [Nat.toDigitsCore]
    by_cases h : n / b = 0
    · simp [h]
    · simp only [h, if_false]
      rw [ih (n / b) (Nat.digitChar (n % b) :: ds),
        ih (n / b) [Nat.digitChar (n % b)]]
      simp

theorem digitChar_ne_colon (m : Nat) (hm : m < 10) : Nat.digitChar m ≠ ':' := by
  have : ∀ k, k < 10 → Nat.digitChar k ≠ ':' := by decide
  exact this m hm

theorem toDigitsCore_no_colon :
    ∀ (fuel n : Nat) (ds : List Char), (∀ c ∈ ds, c ≠ ':') →
      ∀ c ∈ Nat.toDigitsCore 10 fuel n ds, c ≠ ':' := by
  intro fuel
  induction fuel with
  | zero => intro n ds hds; simpa [Nat.toDigitsCore] using hds
  | succ f ih =>
    intro n ds hds c hc
    simp only [Nat.toDigitsCore] at hc
    have hd : ∀ x ∈ Nat.digitChar (n % 10) :: ds, x ≠ ':' := by
      intro x hx
      rcases List.mem_cons.mp hx with hx | hx
      · subst hx
        exact digitChar_ne_colon (n % 10) (Nat.mod_lt n (by omega))
      · exact hds x hx
    by_cases h : n / 10 = 0
    · rw [if_pos h] at hc
      exact hd c hc
    · rw [if_neg h] at hc
      exact ih (n / 10) (Nat.digitChar (n % 10) :: ds) hd c hc

theorem repr_no_colon (n : Nat) : ∀ c ∈ (Nat.repr n).data, c ≠ ':' := by
  intro c hc
  have : (Nat.repr n).data = Nat.toDigitsCore 10 (n + 1) n [] := rfl
  rw [this] at hc
  exact toDigitsCore_no_colon (n + 1) n [] (by simp) c hc

/-- Decimal decoding, the left inverse used to show `Nat.repr` injective. -/
def decDigits (l : List Char) : Nat :=
  l.foldl (fun acc c => acc * 10 + (c.toNat - 48)) 0

theorem decDigits_go (l : List Char) :
    ∀ (a : Nat), l.foldl (fun acc c => acc * 10 + (c.toNat - 48)) a =
      a * 10 ^ l.length + decDigits l := by
  induction l with
  | nil => intro a; simp [decDigits]
  | cons c cs ih =>
    intro a
    simp only [List.foldl_cons, decDigits] at *
    rw [ih (a * 10 + (c.toNat - 48)), ih (0 * 10 + (c.toNat - 48))]
    simp only [List.length_cons, pow_succ]
    ring

theorem digitChar_toNat (m : Nat) (hm : m < 10) :
    (Nat.digitChar m).toNat - 48 = m := by
  have : ∀ k, k < 10 → (Nat.digitChar k).toNat - 48 = k := by decide
  exact this m hm

theorem decDigits_toDigitsCore :
    ∀ (fuel n : Nat), n < fuel →
      decDigits (Nat.toDigitsCore 10 fuel n []) = n := by
  intro fuel
  induction fuel with
  | zero => intro n hn; omega
  | succ f ih =>
    intro n hn
    simp only [Nat.toDigitsCore]
    by_cases h : n / 10 = 0
    · rw [if_pos h]
      have hn10 : n < 10 := by omega
      have : n % 10 = n := Nat.mod_eq_of_lt hn10
      simp [decDigits, this, digitChar_toNat n hn10]
    · rw [if_neg h]
      rw [toDigitsCore_indep 10 f (n / 10) [Nat.digitChar (n % 10)]]
      have hdiv : n / 10 < f := by
        have h1 : n / 10 < n := Nat.div_lt_self (by omega) (by omega)
        omega
      simp only [decDigits, List.foldl_append, List.foldl_cons, List.foldl_nil]
      have hpre := ih (n / 10) hdiv
      rw [show (Nat.toDigitsCore 10 f (n / 10) []).foldl
            (fun acc c => acc * 10 + (c.toNat - 48)) 0 = n / 10 from hpre]
      rw [digitChar_toNat (n % 10) (Nat.mod_lt n (by omega))]
      omega

theorem repr_injective (a b : Nat) (h : Nat.repr a = Nat.repr b) : a = b := by
  have ha : decDigits (Nat.repr a).data = a := by
    have : (Nat.repr a).data = Nat.toDigitsCore 10 (a + 1) a [] := rfl
    rw [this]
    exact decDigits_toDigitsCore (a + 1) a (by omega)
  have hb : decDigits (Nat.repr b).data = b := by
    have : (Nat.repr b).data = Nat.toDigitsCore 10 (b + 1) b [] := rfl
    rw [this]
    exact decDigits_toDigitsCore (b + 1) b (by omega)
  rw [← ha, ← hb, h]

theorem split_at_sep_unique :
    ∀ (a a' b b' : List Char), (∀ c ∈ a, c ≠ ':') → (∀ c ∈ a', c ≠ ':') →
      a ++ ':' :: b = a' ++ ':' :: b' → a = a' ∧ b = b' := by
  intro a
  induction a with
  | nil =>
    intro a' b b' _ ha' h
    cases a' with
    | nil => simpa using h
    | cons x xs =>
      simp only [List.nil_append, List.cons_append, List.cons.injEq] at h
      exact absurd h.1.symm (ha' x (by simp))
  | cons x xs ih =>
    intro a' b b' ha ha' h
    cases a' with
    | nil =>
      simp only [List.cons_append, List.nil_append, List.cons.injEq] at h
      exact absurd h.1 (ha x (by simp))
    | cons y ys =>
      simp only [List.cons_append, List.cons.injEq] at h
      obtain ⟨hxy, hrest⟩ := h
      have := ih ys b b' (fun c hc => ha c (by simp [hc]))
        (fun c hc => ha' c (by simp [hc])) hrest
      exact ⟨by simp [hxy, this.1], this.2⟩

/-- C6 counterexample: two requests that differ in a result-affecting
parameter share a cache key.  The products-list request with
`category=all` filters on `category == "all"` while the request with no
`category` applies no category filter — distinct queries — yet both map to
the key `products:all:0:max:1:20`. -/
theorem c6_distinct_queries_collide_counterexample :
    productsCacheKey (some "all") none none none none =
      productsCacheKey none none none none none ∧
    buildProductsQuery (some "all") none none ≠
      buildProductsQuery none none none := by
  refine ⟨rfl, ?_⟩
  intro h
  have := congrArg ProductsQuery.category h
  simp [buildProductsQuery, jsTruthy] at this

/-- C6 amended: key construction is a deterministic function of resource
kind and the listed parameters, and within the users list endpoint it is
collision-free — `users:page:limit` keys for distinct `(page, limit)`
pairs never coincide — but for the products (and orders) list endpoints
two requests differing in a result-affecting filter parameter can map to
the same key (category absent vs. `category=all`), as the counterexample
shows. -/
theorem c6_users_key_injective (p l p' l' : Nat)
    (h : usersCacheKey p l = usersCacheKey p' l') : p = p' ∧ l = l' := by
  have hdata : "users:".data ++ ((Nat.repr p).data ++ ':' :: (Nat.repr l).data) =
      "users:".data ++ ((Nat.repr p').data ++ ':' :: (Nat.repr l').data) := by
    have := congrArg String.data h
    simpa [usersCacheKey, String.data_append, List.append_assoc] using this
  have hmid := List.append_cancel_left hdata
  have hsplit := split_at_sep_unique
    ((Nat.repr p).data) ((Nat.repr p').data)
    ((Nat.repr l).data) ((Nat.repr l').data)
    (repr_no_colon p) (repr_no_colon p') hmid
  have hp : (Nat.repr p).data = (Nat.repr p').data := hsplit.1
  have hl : (Nat.repr l).data = (Nat.repr l').data := hsplit.2
  constructor
  · exact repr_injective p p' (String.ext hp)
  · exact repr_injective l l' (String.ext hl)

/-- Witness for C6 amended at concrete inputs: equal keys for
`(page, limit) = (2, 10)` force equal parameters. -/
theorem c6_users_key_injective_witness : 2 = 2 ∧ 10 = 10 :=
  c6_users_key_injective 2 10 2 10 rfl

/-! ## Read handlers (src/src/routes/users.js, products.js, orders.js)

Shared mutable state a read handler can touch: the Redis store, the
`cache_operations_total` counters (`labels('get','hit'|'miss')`), the
`db_query_duration_seconds` samples (recorded by their label pair), and a
count of issued MongoDB queries (the DB contents themselves are external:
the computed payload and row count enter as parameters). -/

structure Metrics where
  cacheHitCount : Nat
  cacheMissCount : Nat
  dbSamples : List (String × String)
  deriving DecidableEq, Repr

structure SysState where
  cache : RedisStore
  metrics : Metrics
  dbQueries : Nat
  deriving DecidableEq, Repr

/-- A read handler's response: cached hit, computed miss, or the `catch`
branch's 500 error (reached when a Redis command rejects). -/
inductive ReadResult
  | okHit (body : String)
  | okMiss (body : String)
  | err500
  deriving DecidableEq, Repr

/-- The common shape of every cached read handler (users.js lines 28-68,
products.js lines 20-58 and 82-109, orders.js lines 32-74 and 122-154):
inside `try`, `GET key`; on a hit increment the hit counter and return the
cached body; on a miss increment the miss counter, query the DB (`dbCost`
queries, e.g. 1 + one per row for the N+1 loops), `SETEX key ttl body`,
record a `db_query_duration_seconds` sample, and return the body.  When
the store is unavailable the first `await redis.get` rejects and the
`catch` branch answers 500 without touching any state. -/
def cachedReadHandler (avail : Bool) (now : Nat) (key : String) (ttl : Nat)
    (labels : String × String) (dbCost : Nat) (dbResult : String)
    (s : SysState) : ReadResult × SysState :=
  if avail then
    match getOrCompute now key ttl dbResult s.cache with
    | (.hit, v, _) =>
      (.okHit v,
        { s with metrics :=
            { s.metrics with cacheHitCount := s.metrics.cacheHitCount + 1 } })
    | (.miss, v, st') =>
      (.okMiss v,
        { cache := st',
          metrics :=
            { cacheHitCount := s.metrics.cacheHitCount,
              cacheMissCount := s.metrics.cacheMissCount + 1,
              dbSamples := s.metrics.dbSamples ++ [labels] },
          dbQueries := s.dbQueries + dbCost })
  else (.err500, s)

/-- users.js `GET /`: key `users:page:limit`, TTL 60 s, N+1 queries
(1 find + 1 count per returned user). -/
def usersGetHandler (avail : Bool) (now page limit nRows : Nat)
    (dbResult : String) (s : SysState) : ReadResult × SysState :=
  cachedReadHandler avail now (usersCacheKey page limit) 60 ("find", "users")
    (1 + nRows) dbResult s

/-- products.js `GET /`: composite filter key, TTL 300 s, one find. -/
def productsGetHandler (avail : Bool) (now : Nat)
    (category minPrice maxPrice page limit : Option String)
    (dbResult : String) (s : SysState) : ReadResult × SysState :=
  cachedReadHandler avail now
    (productsCacheKey category minPrice maxPrice page limit) 300
    ("find", "products") 1 dbResult s

/-- products.js `GET /:id`: key `product:id`, TTL 600 s (found case). -/
def productByIdHandler (avail : Bool) (now : Nat) (id : String)
    (dbResult : String) (s : SysState) : ReadResult × SysState :=
  cachedReadHandler avail now (productByIdKey id) 600 ("findById", "products")
    1 dbResult s

/-- orders.js `GET /`: composite filter key, TTL 120 s, N+1 queries. -/
def ordersGetHandler (avail : Bool) (now : Nat)
    (status userId page limit : Option String) (nRows : Nat)
    (dbResult : String) (s : SysState) : ReadResult × SysState :=
  cachedReadHandler avail now (ordersCacheKey status userId page limit) 120
    ("find", "orders") (1 + nRows) dbResult s

/-- orders.js `GET /:id`: key `order:id`, TTL 300 s, find + user populate
(found case). -/
def orderByIdHandler (avail : Bool) (now : Nat) (id : String)
    (dbResult : String) (s : SysState) : ReadResult × SysState :=
  cachedReadHandler avail now (orderByIdKey id) 300 ("findById", "orders")
    2 dbResult s

/-- users.js `GET /search` (lines 112-131): regex search over the users
collection, one `db_query_duration_seconds` sample labelled
`('search','users')` — and NO cache access of any kind. -/
def usersSearchHandler (q : String) (dbResult : String) (s : SysState) :
    String × SysState :=
  (dbResult,
    { s with
      dbQueries := s.dbQueries + 1,
      metrics :=
        { s.metrics with
          dbSamples := s.metrics.dbSamples ++ [("search", "users")] } })

theorem cachedReadHandler_hit (now : Nat) (key : String) (ttl : Nat)
    (labels : String × String) (dbCost : Nat) (dbResult v : String)
    (s : SysState) (h : redisGet now s.cache key = some v) :
    cachedReadHandler true now key ttl labels dbCost dbResult s =
      (.okHit v,
        { s with metrics :=
            { s.metrics with cacheHitCount := s.metrics.cacheHitCount + 1 } }) := by
  simp [cachedReadHandler, getOrCompute, h]

/-! ## C5: which read paths consult the cache -/

/-- C5 counterexample: the claim says every read endpoint answers a warm
request from the cache as a hit without recomputing, but the user-search
endpoint never consults the store.  With an unexpired entry sitting in the
cache, searching still issues a DB query, reports no hit, and returns the
recomputed payload. -/
theorem c5_search_skips_cache_counterexample :
    (usersSearchHandler "john" "freshResult"
        ⟨[("users:search:john", ⟨"cachedResult", 1000⟩)], ⟨0, 0, []⟩, 0⟩).2.dbQueries = 1 ∧
    (usersSearchHandler "john" "freshResult"
        ⟨[("users:search:john", ⟨"cachedResult", 1000⟩)], ⟨0, 0, []⟩, 0⟩).2.metrics.cacheHitCount = 0 ∧
    (usersSearchHandler "john" "freshResult"
        ⟨[("users:search:john", ⟨"cachedResult", 1000⟩)], ⟨0, 0, []⟩, 0⟩).1 =
      "freshResult" :=
  ⟨rfl, rfl, rfl⟩

/-- C5 amended: every read endpoint EXCEPT `GET /api/users/search`
consults the cache-aside store before computing — a call whose result is
stored unexpired under the corresponding key is answered from the cache as
a hit — while the user-search endpoint never touches the cache and always
issues a database query. -/
theorem c5_read_paths_consult_cache_except_search :
    (∀ (now page limit nRows : Nat) (r v : String) (s : SysState),
      redisGet now s.cache (usersCacheKey page limit) = some v →
      usersGetHandler true now page limit nRows r s =
        (.okHit v,
          { s with metrics :=
              { s.metrics with cacheHitCount := s.metrics.cacheHitCount + 1 } })) ∧
    (∀ (now : Nat) (c mp xp pg lm : Option String) (r v : String) (s : SysState),
      redisGet now s.cache (productsCacheKey c mp xp pg lm) = some v →
      productsGetHandler true now c mp xp pg lm r s =
        (.okHit v,
          { s with metrics :=
              { s.metrics with cacheHitCount := s.metrics.cacheHitCount + 1 } })) ∧
    (∀ (now : Nat) (id r v : String) (s : SysState),
      redisGet now s.cache (productByIdKey id) = some v →
      productByIdHandler true now id r s =
        (.okHit v,
          { s with metrics :=
              { s.metrics with cacheHitCount := s.metrics.cacheHitCount + 1 } })) ∧
    (∀ (now : Nat) (st uid pg lm : Option String) (nRows : Nat) (r v : String)
        (s : SysState),
      redisGet now s.cache (ordersCacheKey st uid pg lm) = some v →
      ordersGetHandler true now st uid pg lm nRows r s =
        (.okHit v,
          { s with metrics :=
              { s.metrics with cacheHitCount := s.metrics.cacheHitCount + 1 } })) ∧
    (∀ (now : Nat) (id r v : String) (s : SysState),
      redisGet now s.cache (orderByIdKey id) = some v →
      orderByIdHandler true now id r s =
        (.okHit v,
          { s with metrics :=
              { s.metrics with cacheHitCount := s.metrics.cacheHitCount + 1 } })) ∧
    (∀ (q r : String) (s : SysState),
      (usersSearchHandler q r s).2.cache = s.cache ∧
      (usersSearchHandler q r s).2.metrics.cacheHitCount =
        s.metrics.cacheHitCount ∧
      (usersSearchHandler q r s).2.metrics.cacheMissCount =
        s.metrics.cacheMissCount ∧
      (usersSearchHandler q r s).2.dbQueries = s.dbQueries + 1) := by
  refine ⟨?_, ?_, ?_, ?_, ?_, ?_⟩
  · intro now page limit nRows r v s h
    exact cachedReadHandler_hit now (usersCacheKey page limit) 60
      ("find", "users") (1 + nRows) r v s h
  · intro now c mp xp pg lm r v s h
    exact cachedReadHandler_hit now (productsCacheKey c mp xp pg lm) 300
      ("find", "products") 1 r v s h
  · intro now id r v s h
    exact cachedReadHandler_hit now (productByIdKey id) 600
      ("findById", "products") 1 r v s h
  · intro now st uid pg lm nRows r v s h
    exact cachedReadHandler_hit now (ordersCacheKey st uid pg lm) 120
      ("find", "orders") (1 + nRows) r v s h
  · intro now id r v s h
    exact cachedReadHandler_hit now (orderByIdKey id) 300
      ("findById", "orders") 2 r v s h
  · intro q r s
    exact ⟨rfl, rfl, rfl, rfl⟩

/-- Witness for C5 amended: a warm `users:1:10` entry answers the users
list read as a hit. -/
theorem c5_read_paths_consult_cache_except_search_witness :
    usersGetHandler true 5 1 10 3 "fresh"
        ⟨[("users:1:10", ⟨"warm", 60⟩)], ⟨0, 0, []⟩, 0⟩ =
      (.okHit "warm",
        ⟨[("users:1:10", ⟨"warm", 60⟩)], ⟨1, 0, []⟩, 0⟩) :=
  c5_read_paths_consult_cache_except_search.1 5 1 10 3 "fresh" "warm"
    ⟨[("users:1:10", ⟨"warm", 60⟩)], ⟨0, 0, []⟩, 0⟩ (by rfl)

/-! ## C8: store unavailability is surfaced, not a silent miss -/

/-- C8: when the cache store is unavailable, the read path's outcome is
the 500 error branch — a failure distinguishable from both cache outcomes
(it is neither an `okHit` nor an `okMiss`), and the handler neither
consumes the unavailability as a miss nor mutates any state: the caller is
the one who could catch this and compute without caching. -/
theorem c8_store_unavailable_distinguishable (now page limit nRows : Nat)
    (dbResult : String) (s : SysState) :
    usersGetHandler false now page limit nRows dbResult s = (.err500, s) ∧
    (∀ v : String, ReadResult.err500 ≠ ReadResult.okMiss v) ∧
    (∀ v : String, ReadResult.err500 ≠ ReadResult.okHit v) := by
  refine ⟨rfl, ?_, ?_⟩
  · intro v h
    cases h
  · intro v h
    cases h

/-! ## C10: a cache hit increments the hit counter and nothing else -/

/-- C10: on a cache hit in the users, products or orders list handlers,
the only state change is the `cache_operations_total{get,hit}` increment:
no DB query is issued, no `db_query_duration_seconds` sample is recorded,
the miss counter is untouched, and the cache (keys, values, TTLs) is left
exactly as it was. -/
theorem c10_hit_frame_effect :
    (∀ (now page limit nRows : Nat) (r v : String) (s : SysState),
      redisGet now s.cache (usersCacheKey page limit) = some v →
      ((usersGetHandler true now page limit nRows r s).2.cache = s.cache ∧
        (usersGetHandler true now page limit nRows r s).2.dbQueries = s.dbQueries ∧
        (usersGetHandler true now page limit nRows r s).2.metrics.dbSamples =
          s.metrics.dbSamples ∧
        (usersGetHandler true now page limit nRows r s).2.metrics.cacheMissCount =
          s.metrics.cacheMissCount ∧
        (usersGetHandler true now page limit nRows r s).2.metrics.cacheHitCount =
          s.metrics.cacheHitCount + 1)) ∧
    (∀ (now : Nat) (c mp xp pg lm : Option String) (r v : String) (s : SysState),
      redisGet now s.cache (productsCacheKey c mp xp pg lm) = some v →
      ((productsGetHandler true now c mp xp pg lm r s).2.cache = s.cache ∧
        (productsGetHandler true now c mp xp pg lm r s).2.dbQueries = s.dbQueries ∧
        (productsGetHandler true now c mp xp pg lm r s).2.metrics.dbSamples =
          s.metrics.dbSamples ∧
        (productsGetHandler true now c mp xp pg lm r s).2.metrics.cacheMissCount =
          s.metrics.cacheMissCount ∧
        (productsGetHandler true now c mp xp pg lm r s).2.metrics.cacheHitCount =
          s.metrics.cacheHitCount + 1)) ∧
    (∀ (now : Nat) (st uid pg lm : Option String) (nRows : Nat) (r v : String)
        (s : SysState),
      redisGet now s.cache (ordersCacheKey st uid pg lm) = some v →
      ((ordersGetHandler true now st uid pg lm nRows r s).2.cache = s.cache ∧
        (ordersGetHandler true now st uid pg lm nRows r s).2.dbQueries = s.dbQueries ∧
        (ordersGetHandler true now st uid pg lm nRows r s).2.metrics.dbSamples =
          s.metrics.dbSamples ∧
        (ordersGetHandler true now st uid pg lm nRows r s).2.metrics.cacheMissCount =
          s.metrics.cacheMissCount ∧
        (ordersGetHandler true now st uid pg lm nRows r s).2.metrics.cacheHitCount =
          s.metrics.cacheHitCount + 1)) := by
  refine ⟨?_, ?_, ?_⟩
  · intro now page limit nRows r v s h
    rw [show usersGetHandler true now page limit nRows r s =
      cachedReadHandler true now (usersCacheKey page limit) 60 ("find", "users")
        (1 + nRows) r s from rfl]
    rw [cachedReadHandler_hit now (usersCacheKey page limit) 60 ("find", "users")
      (1 + nRows) r v s h]
    exact ⟨rfl, rfl, rfl, rfl, rfl⟩
  · intro now c mp xp pg lm r v s h
    rw [show productsGetHandler true now c mp xp pg lm r s =
      cachedReadHandler true now (productsCacheKey c mp xp pg lm) 300
        ("find", "products") 1 r s from rfl]
    rw [cachedReadHandler_hit now (productsCacheKey c mp xp pg lm) 300
      ("find", "products") 1 r v s h]
    exact ⟨rfl, rfl, rfl, rfl, rfl⟩
  · intro now st uid pg lm nRows r v s h
    rw [show ordersGetHandler true now st uid pg lm nRows r s =
      cachedReadHandler true now (ordersCacheKey st uid pg lm) 120
        ("find", "orders") (1 + nRows) r s from rfl]
    rw [cachedReadHandler_hit now (ordersCacheKey st uid pg lm) 120
      ("find", "orders") (1 + nRows) r v s h]
    exact ⟨rfl, rfl, rfl, rfl, rfl⟩

/-- Witness for C10: a warm `orders:all:all:1:10` entry leaves everything
but the hit counter unchanged on the orders list read. -/
theorem c10_hit_frame_effect_witness :
    ((ordersGetHandler true 3 none none none none 4 "fresh"
        ⟨[("orders:all:all:1:10", ⟨"warm", 120⟩)], ⟨2, 5, [("find", "users")]⟩, 7⟩).2.cache =
      [("orders:all:all:1:10", ⟨"warm", 120⟩)]) ∧
    ((ordersGetHandler true 3 none none none none 4 "fresh"
        ⟨[("orders:all:all:1:10", ⟨"warm", 120⟩)], ⟨2, 5, [("find", "users")]⟩, 7⟩).2.dbQueries = 7) ∧
    ((ordersGetHandler true 3 none none none none 4 "fresh"
        ⟨[("orders:all:all:1:10", ⟨"warm", 120⟩)], ⟨2, 5, [("find", "users")]⟩, 7⟩).2.metrics.dbSamples =
      [("find", "users")]) ∧
    ((ordersGetHandler true 3 none none none none 4 "fresh"
        ⟨[("orders:all:all:1:10", ⟨"warm", 120⟩)], ⟨2, 5, [("find", "users")]⟩, 7⟩).2.metrics.cacheMissCount = 5) ∧
    ((ordersGetHandler true 3 none none none none 4 "fresh"
        ⟨[("orders:all:all:1:10", ⟨"warm", 120⟩)], ⟨2, 5, [("find", "users")]⟩, 7⟩).2.metrics.cacheHitCount = 2 + 1) :=
  c10_hit_frame_effect.2.2 3 none none none none 4 "fresh" "warm"
    ⟨[("orders:all:all:1:10", ⟨"warm", 120⟩)], ⟨2, 5, [("find", "users")]⟩, 7⟩
    (by rfl)

end PerfLab
